import Mathlib

/-!
Verification development for the workflow agent (`main.py`): a FastAPI service
that executes user-supplied code cells against a persistent shared namespace
(`GLOBAL_CONTEXT`), resolves whitelisted module imports from a remote server,
talks to an upstream inventory/history service through an authenticated
`InternalClient`, and persists workflow outputs as local JSONL files.

The embedding is shallow: Python dicts become association lists, the network
becomes explicit response oracles passed as parameters, user-code `exec`
becomes an abstract cell effect (namespace writes, stream writes, optional
exception), and `datetime` values become an abstract parse result ordered by
`Int`.  Machine-level details that no claim depends on (exact `repr` strings
of opaque objects, ISO-8601 grammar) are fixed by explicit constants.
-/

set_option autoImplicit false
set_option maxRecDepth 8192

namespace WorkflowAgent

/-! ## Python value model

Values that can live in `GLOBAL_CONTEXT`.  Opaque objects from the source
(modules, classes, functions, the `pi` namespace, the `internal` client, a
`PetexServer` handle) are represented by dedicated constructors; `callable(v)`
and `isinstance(v, type)` from the snapshot filters become `isCallable` /
`isType`.  In Python a class object is itself callable, so `isCallable` is
true on `vType` as well. -/

inductive Value where
  | vNone
  | vInt (n : Int)
  | vStr (s : String)
  | vModule (name : String)
  | vType (name : String)
  | vCallable (name : String)
  | vNamespace
  | vClient
  | vServer
  deriving DecidableEq, Repr

def isCallable : Value → Bool
  | .vCallable _ => true
  | .vType _ => true
  | _ => false

def isType : Value → Bool
  | .vType _ => true
  | _ => false

/-- `type(v).__name__` for the snapshot rendering. -/
def typeName : Value → String
  | .vNone => "NoneType"
  | .vInt _ => "int"
  | .vStr _ => "str"
  | .vModule _ => "module"
  | .vType _ => "type"
  | .vCallable _ => "function"
  | .vNamespace => "SimpleNamespace"
  | .vClient => "InternalClient"
  | .vServer => "PetexServer"

/-- `str(v)`.  The strings for opaque objects are fixed representatives of the
CPython reprs; every claim only relies on them being nonempty. -/
def strOf : Value → String
  | .vNone => "None"
  | .vInt n => toString n
  | .vStr s => s
  | .vModule n => "<module " ++ n ++ ">"
  | .vType n => "<class " ++ n ++ ">"
  | .vCallable n => "<function " ++ n ++ ">"
  | .vNamespace => "namespace(value=<function>, series=<function>)"
  | .vClient => "<InternalClient object>"
  | .vServer => "<PetexServer object>"

/-! ## The shared namespace (`GLOBAL_CONTEXT`)

A Python dict with insertion order: an association list with unique keys kept
in insertion order.  `ctxSet` is `d[k] = v`, `ctxPop` is `d.pop(k, None)`,
`ctxGet` is `d.get(k)`. -/

abbrev Ctx : Type := List (String × Value)

def ctxGet (ctx : Ctx) (k : String) : Option Value :=
  (ctx.find? (fun kv => kv.1 == k)).map (fun kv => kv.2)

def ctxSet (ctx : Ctx) (k : String) (v : Value) : Ctx :=
  if ctx.any (fun kv => kv.1 == k) then
    ctx.map (fun kv => if kv.1 == k then (k, v) else kv)
  else
    ctx ++ [(k, v)]

def ctxPop (ctx : Ctx) (k : String) : Ctx :=
  ctx.filter (fun kv => !(kv.1 == k))

/-! ## Namespace snapshots

`run_cell` / `run_all` renders with a 60-character hard truncation and
exclusion set `{gap, resolve, PetexServer, srv}`; `/variables/` renders with an
80-character budget (77 + ellipsis) and reserved set
`{gap, gap_tools, resolve, PetexServer, srv}`. -/

/-- `s.startswith("__")`, expressed over the character list so that concrete
instances evaluate definitionally in the kernel. -/
def startsWithDunder (s : String) : Bool :=
  match s.data with
  | c1 :: c2 :: _ => c1 == '_' && c2 == '_'
  | _ => false

def charLower (c : Char) : Char :=
  if 'A' ≤ c ∧ c ≤ 'Z' then Char.ofNat (c.toNat + 32) else c

/-- Python `str.lower()` on the ASCII range, which covers every name the
service compares. -/
def pyLower (s : String) : String := String.mk (s.data.map charLower)

def digitVal (c : Char) : Option Nat :=
  if '0' ≤ c ∧ c ≤ '9' then some (c.toNat - 48) else none

/-- Python `str.isdigit()` followed by `int(...)`: succeeds exactly on
nonempty all-digit strings. -/
def pyParseNat (s : String) : Option Nat :=
  if s.data = [] then none
  else
    s.data.foldl
      (fun acc c =>
        match acc, digitVal c with
        | some n, some d => some (n * 10 + d)
        | _, _ => none)
      (some 0)

def execExcluded : List String := ["gap", "resolve", "PetexServer", "srv"]

def varsReserved : List String := ["gap", "gap_tools", "resolve", "PetexServer", "srv"]

def keepVar (reserved : List String) (kv : String × Value) : Bool :=
  !(startsWithDunder kv.1) && !(reserved.contains kv.1) && !(isCallable kv.2) && !(isType kv.2)

def snapshotKeep (reserved : List String) (ctx : Ctx) : Ctx :=
  ctx.filter (keepVar reserved)

structure VarInfo where
  type : String
  preview : String
  deriving DecidableEq, Repr

/-- `{"type": type(v).__name__, "preview": str(v)[:60]}` -/
def renderVar60 (v : Value) : VarInfo :=
  ⟨typeName v, (strOf v).take 60⟩

/-- `/variables/` rendering: `str(v)[:77] + "..."` when longer than 80. -/
def renderVar80 (v : Value) : VarInfo :=
  ⟨typeName v, if (strOf v).length > 80 then (strOf v).take 77 ++ "..." else strOf v⟩

/-- `vars_snapshot` of the execution endpoints. -/
def execSnapshot (ctx : Ctx) : List (String × VarInfo) :=
  (snapshotKeep execExcluded ctx).map (fun kv => (kv.1, renderVar60 kv.2))

/-- The `/variables/` endpoint. -/
def listVariables (ctx : Ctx) : List (String × VarInfo) :=
  (snapshotKeep varsReserved ctx).map (fun kv => (kv.1, renderVar80 kv.2))

/-! ## Initial / reset bindings

Module-level `GLOBAL_CONTEXT` (and the dict `reset_context` restores).  The
boolean `petexOk` says whether the `petex_client` imports succeeded: on
failure `gap`, `gap_tools`, `resolve`, `PetexServer` are all `None`. -/

def initialCtx (petexOk : Bool) : Ctx :=
  [("gap", if petexOk then Value.vModule "gap" else Value.vNone),
   ("gap_tools", if petexOk then Value.vModule "gap_tools" else Value.vNone),
   ("resolve", if petexOk then Value.vModule "resolve" else Value.vNone),
   ("PetexServer", if petexOk then Value.vType "PetexServer" else Value.vNone),
   ("pi", Value.vNamespace),
   ("internal", Value.vClient)]

/-- `POST /reset_context/`: `GLOBAL_CONTEXT.clear()` then `update({...})`. -/
def reset_context (petexOk : Bool) (ctx : Ctx) : Ctx :=
  ctx.filter (fun _ => false) ++ initialCtx petexOk

/-! ## Execution engine (`run_cell` / `run_all`)

`exec(code, GLOBAL_CONTEXT)` of one cell is abstracted as: a sequence of
namespace writes, text written to the redirected stdout/stderr, and an
optional escaping exception `(type name, message)`; writes and stream output
happen before the exception (they model whatever the cell did until it
raised). -/

structure Cell where
  assigns : List (String × Value)
  prints : String
  eprints : String
  raises : Option (String × String)

def applyAssigns (ctx : Ctx) (l : List (String × Value)) : Ctx :=
  l.foldl (fun c kv => ctxSet c kv.1 kv.2) ctx

/-- The `for code in cells: exec(code, GLOBAL_CONTEXT)` loop under the stream
redirection, together with the surrounding `except` capture: returns the
namespace, accumulated stdout, accumulated stderr and the escaping exception
(if any), after which no further cell runs. -/
def runCells : List Cell → Ctx → String → String → Ctx × String × String × Option (String × String)
  | [], ctx, out, err => (ctx, out, err, none)
  | c :: rest, ctx, out, err =>
    let ctx := applyAssigns ctx c.assigns
    let out := out ++ c.prints
    let err := err ++ c.eprints
    match c.raises with
    | some e => (ctx, out, err, some e)
    | none => runCells rest ctx out err

/-- A cell that does nothing (e.g. an empty code string). -/
def noopCell : Cell := ⟨[], "", "", none⟩

/-- Concatenation of the texts a list of cells wrote to one stream. -/
def catStrs (l : List String) : String := l.foldr (fun a b => a ++ b) ""

structure RunResult where
  stdout : String
  stderr : String
  vars : List (String × VarInfo)
  status : Nat
  deriving DecidableEq, Repr

/-- The `if workflow_component_id:` block (note Python truthiness: a workflow
id of `0` injects nothing). -/
def injectWorkflow (wf : Option Int) (ctx : Ctx) : Ctx :=
  match wf with
  | some i =>
    if i ≠ 0 then
      ctxSet (ctxSet (ctxSet ctx "workflow_component_id" (Value.vInt i))
          "workflow_load_inputs" (Value.vCallable "workflow_load_inputs"))
        "workflow_save_output" (Value.vCallable "workflow_save_output")
    else ctx
  | none => ctx

/-- Body of the `try` / `except` of `run_all` (before the `finally`): acquire
the Petex server if requested (`petexOk = false` models `PetexServer is None`
or an unconstructible server — the `RuntimeError` is caught by the `except`
and written to stderr, so no cell runs), inject workflow helpers, run the
cells, append the formatted line for an escaping exception. -/
def run_all_core (petexOk usePetex : Bool) (wf : Option Int) (cells : List Cell) (ctx : Ctx) :
    Ctx × String × String :=
  if usePetex && !petexOk then
    (ctx, "", "RuntimeError: Petex is unavailable\n")
  else
    let ctx := if usePetex then ctxSet ctx "srv" Value.vServer else ctx
    let ctx := injectWorkflow wf ctx
    let r := runCells cells ctx "" ""
    match r.2.2.2 with
    | some e => (r.1, r.2.1, r.2.2.1 ++ e.1 ++ ": " ++ e.2 ++ "\n")
    | none => (r.1, r.2.1, r.2.2.1)

/-- `POST /run_all/`: core body, then the `finally: GLOBAL_CONTEXT.pop("srv")`,
then the snapshot; the `JSONResponse` always carries status 200. -/
def run_all (petexOk usePetex : Bool) (wf : Option Int) (cells : List Cell) (ctx : Ctx) :
    Ctx × RunResult :=
  let r := run_all_core petexOk usePetex wf cells ctx
  let c2 := ctxPop r.1 "srv"
  (c2, ⟨r.2.1, r.2.2, execSnapshot c2, 200⟩)

/-- `POST /run_cell/`: identical to `run_all` with the single `code` cell (the
source duplicates the body verbatim with one `exec` instead of the loop). -/
def run_cell (petexOk usePetex : Bool) (wf : Option Int) (c : Cell) (ctx : Ctx) :
    Ctx × RunResult :=
  let r := run_all_core petexOk usePetex wf [c] ctx
  let c2 := ctxPop r.1 "srv"
  (c2, ⟨r.2.1, r.2.2, execSnapshot c2, 200⟩)

/-! ## `InternalClient`: credential lifecycle and request wrapper

The network is an explicit oracle: `NetEnv.gets k url` is the response
`(status_code, text)` to the `k`-th GET this call issues, `NetEnv.refreshes k`
is the `k`-th token-refresh POST, rendered as `(status_code, token)` where
`token` is `data.get("access") or data.get("token")` with `""` for a missing
field, and `authResp` is the password-grant POST rendered the same way.
Python falsiness of an absent string field is the `= ""` test.  `resp.json()`
of a data GET is kept opaque as the body string. -/

structure Client where
  base_url : String
  api_key : String
  auth_token : String
  username : String
  password : String
  refresh_token : String
  deriving DecidableEq, Repr

structure NetEnv where
  gets : Nat → String → Nat × String
  refreshes : Nat → Nat × String
  authResp : Nat × String

/-- Client plus per-call HTTP counters (how many GETs / refresh POSTs this
call has issued so far). -/
structure AgentSt where
  client : Client
  getCount : Nat
  refreshCount : Nat
  deriving DecidableEq, Repr

/-- `InternalClient._refresh_token`. -/
def clientRefreshToken (env : NetEnv) (st : AgentSt) : AgentSt × Bool :=
  if st.client.refresh_token = "" then (st, false)
  else
    let resp := env.refreshes st.refreshCount
    let st := { st with refreshCount := st.refreshCount + 1 }
    if resp.1 ≠ 200 then (st, false)
    else if resp.2 = "" then (st, false)
    else ({ st with client := { st.client with auth_token := resp.2 } }, true)

/-- `InternalClient._ensure_token`. -/
def clientEnsureToken (env : NetEnv) (st : AgentSt) : Except String AgentSt :=
  if st.client.auth_token ≠ "" then .ok st
  else
    let r := if st.client.refresh_token ≠ "" then clientRefreshToken env st else (st, false)
    if r.2 then .ok r.1
    else if r.1.client.username = "" ∨ r.1.client.password = "" then .ok r.1
    else
      let resp := env.authResp
      if resp.1 ≠ 200 then
        .error ("Auth token request failed (" ++ toString resp.1 ++ "): " ++ resp.2)
      else if resp.2 = "" then .error "Auth token missing in response"
      else .ok { r.1 with client := { r.1.client with auth_token := resp.2 } }

/-- `InternalClient._headers`: ensure a token, fail with the descriptive
message when none could be obtained, else build the header dict. -/
def clientHeaders (env : NetEnv) (st : AgentSt) :
    Except String (AgentSt × List (String × String)) :=
  match clientEnsureToken env st with
  | .error e => .error e
  | .ok st =>
    if st.client.auth_token = "" then
      .error "Missing auth token. Set WORKFLOW_AGENT_AUTH_TOKEN or WORKFLOW_AGENT_USERNAME/WORKFLOW_AGENT_PASSWORD."
    else
      .ok (st, (if st.client.api_key ≠ "" then [("X-API-Key", st.client.api_key)] else [])
        ++ [("Authorization", "Bearer " ++ st.client.auth_token)])

/-- `InternalClient._request`: GET with headers; on a 401 whose refresh
succeeds, retry the same GET once; any final non-200 is a hard failure whose
message carries the status code and body text. -/
def clientRequest (env : NetEnv) (path : String) (st : AgentSt) :
    Except String (AgentSt × String) :=
  match clientHeaders env st with
  | .error e => .error e
  | .ok h1 =>
    let st1 := h1.1
    let url := st1.client.base_url ++ path
    let resp := env.gets st1.getCount url
    let st2 : AgentSt := { st1 with getCount := st1.getCount + 1 }
    let step : Except String (AgentSt × (Nat × String)) :=
      if resp.1 = 401 then
        let rr := clientRefreshToken env st2
        if rr.2 then
          match clientHeaders env rr.1 with
          | .error e => .error e
          | .ok h2 =>
            let st3 := h2.1
            .ok ({ st3 with getCount := st3.getCount + 1 }, env.gets st3.getCount url)
        else .ok (rr.1, resp)
      else .ok (st2, resp)
    match step with
    | .error e => .error e
    | .ok r =>
      if r.2.1 ≠ 200 then
        .error ("Internal API failed (" ++ toString r.2.1 ++ "): " ++ r.2.2)
      else
        .ok (r.1, r.2.2)

/-! ## Entity-reference resolution

Caller-supplied references: `None`, a bare int, a string (numeral or name), a
dict (with an `id` field, a kind-specific foreign-key field modelled as `alt`
— `component_id` / `object_type_id` / `object_instance_id` /
`object_type_property_id` — or a `name` field), or an object exposing `pk`.
`str.isdigit()` followed by `int(...)` is modelled by `pyParseNat` (both
accept exactly the nonempty ASCII-digit strings relevant here). -/

inductive Ref where
  | rNone
  | rInt (n : Int)
  | rStr (s : String)
  | rDict (idF altF : Option Int) (nameF : Option String)
  | rObj (pk : Int)
  deriving DecidableEq, Repr

/-- One entry of an upstream listing: `{"id": ..., "name": ...}`. -/
structure MetaEntry where
  id : Int
  name : String
  deriving DecidableEq, Repr

/-- `/object-metadata/` payload: `types` plus `instances` / `properties` as
dicts keyed by type name. -/
structure Meta where
  types : List MetaEntry
  instances : List (String × List MetaEntry)
  properties : List (String × List MetaEntry)
  deriving DecidableEq, Repr

/-- Lookup in a Python dict comprehension `{k: v for ...}`: on duplicate keys
the last binding wins, hence the reversed search. -/
def nameGet (byName : List (String × Int)) (key : String) : Option Int :=
  (byName.reverse.find? (fun kv => kv.1 == key)).map (fun kv => kv.2)

/-- `set.add` on a deduplicated id list (Mathlib `List.insert` prepends when
absent; only membership and nodup-ness of the result matter). -/
def refStep (byName : List (String × Int)) (ids : List Int) : Ref → List Int
  | .rNone => ids
  | .rDict idF altF nameF =>
    match idF with
    | some i => ids.insert i
    | none =>
      match altF with
      | some a => ids.insert a
      | none =>
        match nameF with
        | some nm =>
          if nm ≠ "" then
            match nameGet byName (pyLower nm) with
            | some v => if v ≠ 0 then ids.insert v else ids
            | none => ids
          else ids
        | none => ids
  | .rObj pk => ids.insert pk
  | .rInt n => ids.insert n
  | .rStr s =>
    match pyParseNat s with
    | some n => ids.insert (n : Int)
    | none =>
      match nameGet byName (pyLower s) with
      | some v => if v ≠ 0 then ids.insert v else ids
      | none => ids

/-- The common reference loop of `_resolve_type_ids` / `_resolve_instance_ids`
/ `_resolve_property_ids` (the source repeats it verbatim three times, with
only the `alt` field name and the name→id map changing). -/
def refLoop (byName : List (String × Int)) (items : List Ref) : List Int :=
  items.foldl (refStep byName) []

/-- `object_type` may be a single reference or a collection
(`isinstance(object_type, (list, tuple, set))`). -/
inductive RefInput where
  | single (r : Ref)
  | listOf (l : List Ref)
  deriving DecidableEq, Repr

def RefInput.items : RefInput → List Ref
  | .single r => [r]
  | .listOf l => l

def metaTypesByName (meta : Meta) : List (String × Int) :=
  meta.types.map (fun t => (pyLower t.name, t.id))

def metaInstancesByName (meta : Meta) : List (String × Int) :=
  (meta.instances.map (fun p => p.2.map (fun e => (pyLower e.name, e.id)))).flatten

def metaPropertiesByName (meta : Meta) : List (String × Int) :=
  (meta.properties.map (fun p => p.2.map (fun e => (pyLower e.name, e.id)))).flatten

/-- `InternalClient._resolve_type_ids` (guard: `if object_type is None`). -/
def resolve_type_ids (object_type : Option RefInput) (meta : Meta) : List Int :=
  match object_type with
  | none => []
  | some inp => refLoop (metaTypesByName meta) inp.items

/-- `InternalClient._resolve_instance_ids` (guard: `if not instances`, so the
empty collection also yields the empty set; no single-item wrapping). -/
def resolve_instance_ids (instances : Option (List Ref)) (meta : Meta) : List Int :=
  match instances with
  | none => []
  | some [] => []
  | some l => refLoop (metaInstancesByName meta) l

/-- `InternalClient._resolve_property_ids` (same shape as instances). -/
def resolve_property_ids (properties : Option (List Ref)) (meta : Meta) : List Int :=
  match properties with
  | none => []
  | some [] => []
  | some l => refLoop (metaPropertiesByName meta) l

/-- One entry of `/data-sources/Internal/components/`. -/
structure Comp where
  id : Int
  name : String
  deriving DecidableEq, Repr

/-- Python `sorted`: ascending insertion sort. -/
def insertSorted (n : Int) : List Int → List Int
  | [] => [n]
  | m :: ms => if n ≤ m then n :: m :: ms else m :: insertSorted n ms

def pySorted (l : List Int) : List Int := l.foldr insertSorted []

/-- `sorted(set(ids))`. -/
def pySortedSet (l : List Int) : List Int := pySorted l.dedup

/-- The component reference loop: unlike the metadata kinds it appends to a
plain list (dedup/sort happen afterwards) and a dict/string name hit is
appended without the `if val:` zero-truthiness test (`if comp:` on a dict is
always true for a found entry). -/
def componentStep (byName : List (String × Int)) (ids : List Int) : Ref → List Int
  | .rNone => ids
  | .rDict idF altF nameF =>
    match idF with
    | some i => ids ++ [i]
    | none =>
      match altF with
      | some a => ids ++ [a]
      | none =>
        match nameF with
        | some nm =>
          if nm ≠ "" then
            match nameGet byName (pyLower nm) with
            | some v => ids ++ [v]
            | none => ids
          else ids
        | none => ids
  | .rObj pk => ids ++ [pk]
  | .rInt n => ids ++ [n]
  | .rStr s =>
    match pyParseNat s with
    | some n => ids ++ [(n : Int)]
    | none =>
      match nameGet byName (pyLower s) with
      | some v => ids ++ [v]
      | none => ids

/-- `InternalClient._resolve_component_ids` (given the fetched component
listing).  `if not components:` returns every truthy listed id unsorted;
otherwise the loop result is filtered to listed ids, deduplicated and
sorted. -/
def resolve_component_ids (components : Option (List Ref)) (comps : List Comp) : List Int :=
  let compIds := comps.map (fun c => c.id)
  match components with
  | none => compIds.filter (fun i => i ≠ 0)
  | some [] => compIds.filter (fun i => i ≠ 0)
  | some items =>
    let byName := comps.map (fun c => (pyLower c.name, c.id))
    let ids := items.foldl (componentStep byName) []
    pySortedSet (ids.filter (fun i => compIds.contains i))

/-! ## `get_history` time-window filtering

`_parse_dt` is abstracted over the ISO-8601 grammar: a source time value is
either falsy (`None` / `""`), a string `fromisoformat` accepts — carrying its
UTC-normalised instant as an `Int` so that datetime comparison is integer
comparison — or an unparseable string (`fromisoformat` raises, `_parse_dt`
returns `None`). -/

inductive TimeVal where
  | falsy
  | parsed (t : Int)
  | unparseable
  deriving DecidableEq, Repr

/-- `InternalClient._parse_dt`. -/
def parse_dt : TimeVal → Option Int
  | .falsy => none
  | .parsed t => some t
  | .unparseable => none

/-- A record returned by `get_records` (only the fields `get_history`
reads). -/
structure Rec where
  component : Option Int
  component_id : Option Int
  data_set_id : Option Int
  rid : Option Int
  object_type : Option Int
  object_instance : Option Int
  object_type_property : Option Int
  deriving DecidableEq, Repr

/-- Python `a or b` on optional ints (`0` and `None` are falsy). -/
def pyOr (a b : Option Int) : Option Int :=
  match a with
  | some n => if n ≠ 0 then some n else b
  | none => b

def isTruthyInt : Option Int → Bool
  | some n => n ≠ 0
  | none => false

/-- One `/components/{c}/row/{r}/history/` entry: its `time` field plus the
rest of the payload kept opaque. -/
structure HistItem where
  time : TimeVal
  payload : String
  deriving DecidableEq, Repr

structure HistOut where
  time : TimeVal
  payload : String
  component_id : Int
  main_record_id : Int
  object_type_name : String
  object_instance_name : String
  object_type_property_name : String
  deriving DecidableEq, Repr

/-- `type_map.get(type_id, "")` over a flattened `{id: name}` map built by
`_build_meta_maps` (last duplicate wins). -/
def idNameGet (entries : List MetaEntry) (oid : Option Int) : String :=
  match oid with
  | none => ""
  | some i =>
    match (entries.reverse.find? (fun e => e.id == i)) with
    | some e => e.name
    | none => ""

def metaInstanceEntries (meta : Meta) : List MetaEntry :=
  (meta.instances.map (fun p => p.2)).flatten

def metaPropertyEntries (meta : Meta) : List MetaEntry :=
  (meta.properties.map (fun p => p.2)).flatten

/-- The decoration `get_history` applies to a kept entry. -/
def decorateItem (meta : Meta) (rec : Rec) (ci ri : Int) (item : HistItem) : HistOut :=
  ⟨item.time, item.payload, ci, ri,
    idNameGet meta.types rec.object_type,
    idNameGet (metaInstanceEntries meta) rec.object_instance,
    idNameGet (metaPropertyEntries meta) rec.object_type_property⟩

/-- `if start_dt and dt and dt < start_dt: continue` (a datetime object is
always truthy, so only `None` short-circuits). -/
def skipBeforeStart (startDt dt : Option Int) : Bool :=
  match startDt, dt with
  | some s, some d => d < s
  | _, _ => false

def skipAfterEnd (endDt dt : Option Int) : Bool :=
  match endDt, dt with
  | some e, some d => e < d
  | _, _ => false

/-- Per-record contribution of the `get_history` loop. -/
def historyContrib (histories : Int → Int → List HistItem) (meta : Meta)
    (startDt endDt : Option Int) (rec : Rec) : List HistOut :=
  let compId := pyOr rec.component rec.component_id
  let rowId := pyOr rec.data_set_id rec.rid
  if isTruthyInt compId && isTruthyInt rowId then
    let ci := compId.getD 0
    let ri := rowId.getD 0
    ((histories ci ri).filter (fun item =>
        !(skipBeforeStart startDt (parse_dt item.time))
          && !(skipAfterEnd endDt (parse_dt item.time)))).map
      (decorateItem meta rec ci ri)
  else []

/-- `InternalClient.get_history` after its `get_records` / `_metadata`
fetches: `records` is the `get_records` result, `histories` the per-row
history fetches, `startV` / `endV` the caller-supplied bounds (which also go
through `_parse_dt`). -/
def get_history_core (records : List Rec) (histories : Int → Int → List HistItem)
    (meta : Meta) (startV endV : TimeVal) : List HistOut :=
  (records.map (historyContrib histories meta (parse_dt startV) (parse_dt endV))).flatten

/-! ## Remote module loader (`RemoteModuleLoader.get_data`)

Paths are lists of characters so that `str.replace(".", "/")` (single-char
pattern, hence a character map) and `str.split("/")` are structural
recursions.  The server is an oracle from URL to `(status_code, text)`. -/

def MAIN_SERVER_MODULE_URL : String := "http://btlweb:8000/api/module"

def replaceDots (l : List Char) : List Char :=
  l.map (fun ch => if ch = '.' then '/' else ch)

/-- Python `s.split("/")` on the character level. -/
def splitSlash : List Char → List (List Char)
  | [] => [[]]
  | ch :: rest =>
    if ch = '/' then [] :: splitSlash rest
    else
      match splitSlash rest with
      | s :: ss => (ch :: s) :: ss
      | [] => [[ch]]

/-- `module_path.split("/")[-1]`. -/
def lastSegment (l : List Char) : List Char :=
  (splitSlash l).getLastD []

/-- `RemoteModuleLoader.get_data`: fetch `{base}/module/{path}`; when that is
a 404 and `"/" not in module_path.split("/")[-1]`, refetch with the
`/__init__.py` suffix; a final non-200 aborts with the attempted URL and
status. -/
def get_data (server : List Char → Nat × String) (path : List Char) : Except String String :=
  let module_path := replaceDots path
  let url := MAIN_SERVER_MODULE_URL.data ++ '/' :: module_path
  let resp := server url
  let r :=
    if resp.1 = 404 && !((lastSegment module_path).contains '/') then
      let url2 := url ++ "/__init__.py".data
      (url2, server url2)
    else (url, resp)
  if r.2.1 ≠ 200 then
    .error ("Failed to fetch: " ++ String.mk r.1 ++ " (" ++ toString r.2.1 ++ ")")
  else .ok r.2.2

/-- Refinement reference, modelled from the amended claim text: retry with the
package-init suffix whenever the first response is a 404, with no condition on
the shape of the path. -/
def get_data_retry_always (server : List Char → Nat × String) (path : List Char) :
    Except String String :=
  let module_path := replaceDots path
  let url := MAIN_SERVER_MODULE_URL.data ++ '/' :: module_path
  let resp := server url
  let r :=
    if resp.1 = 404 then
      let url2 := url ++ "/__init__.py".data
      (url2, server url2)
    else (url, resp)
  if r.2.1 ≠ 200 then
    .error ("Failed to fetch: " ++ String.mk r.1 ++ " (" ++ toString r.2.1 ++ ")")
  else .ok r.2.2

/-! ## Local workflow output persistence

The filesystem is a path→content map; a record is its serialised JSON line
(`json.dumps` kept opaque). -/

abbrev FS : Type := List (String × String)

def fsRead (fs : FS) (p : String) : Option String :=
  (fs.find? (fun kv => kv.1 == p)).map (fun kv => kv.2)

def fsWrite (fs : FS) (p : String) (text : String) : FS :=
  if fs.any (fun kv => kv.1 == p) then
    fs.map (fun kv => if kv.1 == p then (p, text) else kv)
  else
    fs ++ [(p, text)]

def fsAppend (fs : FS) (p : String) (text : String) : FS :=
  fsWrite fs p ((fsRead fs p).getD "" ++ text)

/-- `_workflow_output_path`. -/
def workflowOutputPath (outputDir : String) (wfId : Int) : String :=
  outputDir ++ "/workflow_" ++ toString wfId ++ ".jsonl"

/-- `records if isinstance(records, list) else [records]`. -/
inductive RecordsArg where
  | single (item : String)
  | listOf (items : List String)
  deriving DecidableEq, Repr

def RecordsArg.items : RecordsArg → List String
  | .single s => [s]
  | .listOf l => l

structure SaveResult where
  status : String
  path : String
  count : Nat
  deriving DecidableEq, Repr

/-- `_save_workflow_output_local`: validate the mode, write or append the
JSONL text, stamp `workflow_last_output_path` / `workflow_last_output_count`
into `GLOBAL_CONTEXT`, and return the status payload.  The `ValueError` on a
bad mode is the `.error` case. -/
def save_workflow_output_local (outputDir : String) (wfId : Int) (records : RecordsArg)
    (mode : String) (ctx : Ctx) (fs : FS) : Except String (Ctx × FS × SaveResult) :=
  if mode ≠ "append" ∧ mode ≠ "replace" then
    .error "ValueError: mode must be append or replace"
  else
    let path := workflowOutputPath outputDir wfId
    let items := records.items
    let text := String.join (items.map (fun s => s ++ "\n"))
    let fs := if mode = "replace" then fsWrite fs path text else fsAppend fs path text
    let ctx := ctxSet (ctxSet ctx "workflow_last_output_path" (Value.vStr path))
      "workflow_last_output_count" (Value.vInt items.length)
    .ok (ctx, fs, ⟨"saved_local", path, items.length⟩)

/-- The `workflow_save_output` closure injected by the execution endpoints:
route to the database writer when `save_to == "db"` or the process-wide
`OUTPUT_MODE` is `"db"`, else to the local writer.  The database branch calls
`_save_workflow_output_db`, a name defined nowhere in the module, so taking it
raises `NameError` at call time; that is this `.error` case. -/
def workflow_save_output (outputMode outputDir : String) (wfId : Int)
    (records : RecordsArg) (mode : String) (save_to : Option String)
    (ctx : Ctx) (fs : FS) : Except String (Ctx × FS × SaveResult) :=
  if save_to = some "db" ∨ outputMode = "db" then
    .error "NameError: name _save_workflow_output_db is not defined"
  else
    save_workflow_output_local outputDir wfId records mode ctx fs

/-! ## Concrete fixtures used by closed theorems -/

/-- A network in which the first data GET is unauthorized, the refresh
succeeds with a fresh token, and the retried GET succeeds. -/
def refreshEnv : NetEnv :=
  ⟨fun k _ => if k = 0 then (401, "expired") else (200, "payload"),
   fun _ => (200, "tok2"), (500, "")⟩

def refreshClient : Client := ⟨"http://btlweb:8000/api", "key", "tok1", "", "", "rt"⟩

/-- A module server that 404s everything except the package-init path of
`apiapp/domains`. -/
def module404Server : List Char → Nat × String := fun url =>
  if url = "http://btlweb:8000/api/module/apiapp/domains/__init__.py".data then
    (200, "INITSRC")
  else (404, "")

/-! ## Helper lemmas: the namespace dictionary -/

theorem ctxGet_cons (kv : String × Value) (l : Ctx) (k : String) :
    ctxGet (kv :: l) k = if kv.1 == k then some kv.2 else ctxGet l k := by
  cases h : kv.1 == k with
  | true => simp [ctxGet, h]
  | false => simp [ctxGet, h]

theorem ctxGet_ctxPop_self (ctx : Ctx) (k : String) : ctxGet (ctxPop ctx k) k = none := by
  have h : (ctxPop ctx k).find? (fun kv => kv.1 == k) = none := by
    rw [List.find?_eq_none]
    intro x hx
    have hx2 := (List.mem_filter.mp hx).2
    simp at hx2
    simpa using hx2
  simp [ctxGet, h]

theorem ctxGet_ctxPop_ne (ctx : Ctx) (k k' : String) (h : k' ≠ k) :
    ctxGet (ctxPop ctx k) k' = ctxGet ctx k' := by
  induction ctx with
  | nil => rfl
  | cons kv rest ih =>
    cases hk : kv.1 == k with
    | true =>
      have hk1 : kv.1 = k := eq_of_beq hk
      have hne : kv.1 ≠ k' := by
        rw [hk1]
        intro e
        exact h e.symm
      have hq : (kv.1 == k') = false := beq_eq_false_iff_ne.mpr hne
      simpa [ctxPop, List.filter_cons, hk, ctxGet_cons, hq] using ih
    | false =>
      cases hq : kv.1 == k' with
      | true => simp [ctxPop, List.filter_cons, hk, ctxGet_cons, hq]
      | false => simpa [ctxPop, List.filter_cons, hk, ctxGet_cons, hq] using ih

theorem ctxGet_ctxSet_self (ctx : Ctx) (k : String) (v : Value) :
    ctxGet (ctxSet ctx k v) k = some v := by
  unfold ctxSet
  cases hany : ctx.any (fun kv => kv.1 == k) with
  | true =>
    rw [if_pos rfl]
    have hpf : ((fun kv : String × Value => kv.1 == k) ∘
        (fun kv : String × Value => if kv.1 == k then (k, v) else kv)) =
        (fun kv : String × Value => kv.1 == k) := by
      funext kv
      cases hkv : kv.1 == k with
      | true => simp [Function.comp, hkv]
      | false => simp [Function.comp, hkv]
    obtain ⟨b, hb⟩ : ∃ b, ctx.find? (fun kv => kv.1 == k) = some b := by
      have h1 : (ctx.find? (fun kv => kv.1 == k)).isSome := by
        rw [List.find?_isSome]
        obtain ⟨x, hx, hpx⟩ := List.any_eq_true.mp hany
        exact ⟨x, hx, hpx⟩
      exact Option.isSome_iff_exists.mp h1
    have hbk0 := List.find?_some hb
    have hbk : b.1 = k := eq_of_beq hbk0
    simp only [ctxGet]
    rw [List.find?_map, hpf, hb]
    simp [hbk]
  | false =>
    rw [if_neg (by simp)]
    have hnone : ctx.find? (fun kv => kv.1 == k) = none := by
      rw [List.find?_eq_none]
      intro x hx
      have := List.any_eq_false.mp hany x hx
      exact this
    simp only [ctxGet]
    rw [List.find?_append, hnone]
    simp

theorem ctxGet_ctxSet_ne (ctx : Ctx) (k k' : String) (v : Value) (h : k' ≠ k) :
    ctxGet (ctxSet ctx k v) k' = ctxGet ctx k' := by
  have hkk : (k == k') = false := beq_eq_false_iff_ne.mpr (fun e => h e.symm)
  unfold ctxSet
  cases hany : ctx.any (fun kv => kv.1 == k) with
  | true =>
    rw [if_pos rfl]
    have hpf : ((fun kv : String × Value => kv.1 == k') ∘
        (fun kv : String × Value => if kv.1 == k then (k, v) else kv)) =
        (fun kv : String × Value => kv.1 == k') := by
      funext kv
      cases hkv : kv.1 == k with
      | true =>
        have hk1 : kv.1 = k := eq_of_beq hkv
        simp [Function.comp, hkv, hk1, hkk]
      | false => simp [Function.comp, hkv]
    simp only [ctxGet]
    rw [List.find?_map, hpf]
    cases hb : ctx.find? (fun kv => kv.1 == k') with
    | none => simp
    | some b =>
      have hbk : b.1 = k' := by
        have h2 := List.find?_some hb
        simpa using h2
      have hne : ¬ b.1 = k := by
        rw [hbk]
        exact h
      simp [hne]
  | false =>
    rw [if_neg (by simp)]
    have hp : ((k, v).1 == k') = false := hkk
    simp only [ctxGet]
    rw [List.find?_append]
    simp [hp]

theorem mem_snapshotKeep_of_ctxGet (res : List String) (ctx : Ctx) (k : String) (v : Value)
    (h : ctxGet ctx k = some v) (hkeep : keepVar res (k, v) = true) :
    (k, v) ∈ snapshotKeep res ctx := by
  obtain ⟨kv, hfind, hv⟩ : ∃ kv, ctx.find? (fun kv => kv.1 == k) = some kv ∧ kv.2 = v := by
    unfold ctxGet at h
    cases hf : ctx.find? (fun kv => kv.1 == k) with
    | none => rw [hf] at h; simp at h
    | some kv =>
      rw [hf] at h
      simp at h
      exact ⟨kv, rfl, h⟩
  have hk1 : kv.1 = k := by
    have h2 := List.find?_some hfind
    simpa using h2
  have hmem : kv ∈ ctx := List.mem_of_find?_eq_some hfind
  have hkv : kv = (k, v) := by
    obtain ⟨a, b⟩ := kv
    simp at hk1 hv
    rw [hk1, hv]
  rw [hkv] at hmem
  exact List.mem_filter.mpr ⟨hmem, hkeep⟩

/-! ## Helper lemmas: the execution loop -/

theorem catStrs_nil : catStrs [] = "" := rfl

theorem catStrs_cons (a : String) (l : List String) : catStrs (a :: l) = a ++ catStrs l := rfl

theorem runCells_append_of_no_raise (pre rest : List Cell) :
    ∀ (ctx : Ctx) (out err : String), (∀ c ∈ pre, c.raises = none) →
      runCells (pre ++ rest) ctx out err =
        runCells rest (runCells pre ctx out err).1
          (runCells pre ctx out err).2.1 (runCells pre ctx out err).2.2.1 := by
  induction pre with
  | nil =>
    intro ctx out err _
    rfl
  | cons c pre ih =>
    intro ctx out err h
    have hc : c.raises = none := h c (List.mem_cons_self c pre)
    have hpre : ∀ c' ∈ pre, c'.raises = none := fun c' hc' => h c' (List.mem_cons_of_mem c hc')
    simp only [List.cons_append, runCells, hc]
    exact ih _ _ _ hpre

theorem runCells_no_raise_spec (pre : List Cell) :
    ∀ (ctx : Ctx) (out err : String), (∀ c ∈ pre, c.raises = none) →
      (runCells pre ctx out err).2.1 = out ++ catStrs (pre.map (fun x => x.prints)) ∧
      (runCells pre ctx out err).2.2.1 = err ++ catStrs (pre.map (fun x => x.eprints)) ∧
      (runCells pre ctx out err).2.2.2 = none := by
  induction pre with
  | nil =>
    intro ctx out err _
    simp [runCells, catStrs_nil]
  | cons c pre ih =>
    intro ctx out err h
    have hc : c.raises = none := h c (List.mem_cons_self c pre)
    have hpre : ∀ c' ∈ pre, c'.raises = none := fun c' hc' => h c' (List.mem_cons_of_mem c hc')
    obtain ⟨h1, h2, h3⟩ := ih (applyAssigns ctx c.assigns) (out ++ c.prints) (err ++ c.eprints) hpre
    simp only [runCells, hc, List.map_cons, catStrs_cons]
    refine ⟨?_, ?_, h3⟩
    · rw [h1, String.append_assoc]
    · rw [h2, String.append_assoc]

theorem runCells_raise_spec (pre : List Cell) (c : Cell) (rest : List Cell) (tn msg : String)
    (hpre : ∀ c' ∈ pre, c'.raises = none) (hc : c.raises = some (tn, msg)) :
    ∀ (ctx : Ctx) (out err : String), runCells (pre ++ c :: rest) ctx out err =
      (applyAssigns (runCells pre ctx out err).1 c.assigns,
       out ++ catStrs (pre.map (fun x => x.prints)) ++ c.prints,
       err ++ catStrs (pre.map (fun x => x.eprints)) ++ c.eprints,
       some (tn, msg)) := by
  intro ctx out err
  rw [runCells_append_of_no_raise pre (c :: rest) ctx out err hpre]
  obtain ⟨h1, h2, h3⟩ := runCells_no_raise_spec pre ctx out err hpre
  simp only [runCells, hc, h1, h2]

/-! ## Claim C2 -/

/-- C2: for every `run_cell` / `run_all` request — normal completion, a
fragment exception, or an abort after the resource was acquired — the
reserved resource binding `srv` is absent from the shared namespace when the
request finishes (the `finally` pop), while every other binding is exactly
what the request body left behind. -/
theorem srv_always_pruned (petexOk usePetex : Bool) (wf : Option Int) (cells : List Cell)
    (c : Cell) (ctx : Ctx) :
    ctxGet (run_all petexOk usePetex wf cells ctx).1 "srv" = none ∧
    ctxGet (run_cell petexOk usePetex wf c ctx).1 "srv" = none ∧
    (∀ k, k ≠ "srv" →
      ctxGet (run_all petexOk usePetex wf cells ctx).1 k
        = ctxGet (run_all_core petexOk usePetex wf cells ctx).1 k) := by
  refine ⟨?_, ?_, ?_⟩
  · simp only [run_all]
    exact ctxGet_ctxPop_self _ _
  · simp only [run_cell]
    exact ctxGet_ctxPop_self _ _
  · intro k hk
    simp only [run_all]
    exact ctxGet_ctxPop_ne _ _ _ hk

/-- Witness for C2 at a concrete request that acquires the resource. -/
theorem srv_always_pruned_witness :
    ctxGet (run_all true true (some 5) [noopCell] (initialCtx true)).1 "srv" = none ∧
    ctxGet (run_all true true (some 5) [noopCell] (initialCtx true)).1 "pi"
      = ctxGet (run_all_core true true (some 5) [noopCell] (initialCtx true)).1 "pi" := by
  refine ⟨(srv_always_pruned true true (some 5) [noopCell] noopCell (initialCtx true)).1, ?_⟩
  exact (srv_always_pruned true true (some 5) [noopCell] noopCell (initialCtx true)).2.2 "pi"
    (by decide)

/-! ## Claim C3 -/

/-- C3: in `run_all`, a fragment that raises stops the batch — the response
does not depend on the fragments after it — stderr carries the exception
formatted as `Type: message` on one line after everything the earlier
fragments wrote, stdout carries everything printed up to the failure, and the
transport-level status is still 200. -/
theorem run_all_fragment_failure (petexOk usePetex : Bool) (wf : Option Int)
    (pre : List Cell) (c : Cell) (post : List Cell) (ctx : Ctx) (tn msg : String)
    (hacq : usePetex = true → petexOk = true)
    (hpre : ∀ c' ∈ pre, c'.raises = none)
    (hc : c.raises = some (tn, msg)) :
    run_all petexOk usePetex wf (pre ++ c :: post) ctx
        = run_all petexOk usePetex wf (pre ++ [c]) ctx ∧
    (run_all petexOk usePetex wf (pre ++ c :: post) ctx).2.stdout
        = catStrs (pre.map (fun x => x.prints)) ++ c.prints ∧
    (run_all petexOk usePetex wf (pre ++ c :: post) ctx).2.stderr
        = catStrs (pre.map (fun x => x.eprints)) ++ c.eprints ++ tn ++ ": " ++ msg ++ "\n" ∧
    (run_all petexOk usePetex wf (pre ++ c :: post) ctx).2.status = 200 := by
  have hflag : (usePetex && !petexOk) = false := by
    cases hu : usePetex with
    | false => rfl
    | true => rw [hacq hu]; rfl
  have hcore : ∀ rest : List Cell,
      run_all_core petexOk usePetex wf (pre ++ c :: rest) ctx =
        (applyAssigns
            (runCells pre
              (injectWorkflow wf (if usePetex then ctxSet ctx "srv" Value.vServer else ctx))
              "" "").1 c.assigns,
         catStrs (pre.map (fun x => x.prints)) ++ c.prints,
         catStrs (pre.map (fun x => x.eprints)) ++ c.eprints ++ tn ++ ": " ++ msg ++ "\n") := by
    intro rest
    unfold run_all_core
    rw [hflag]
    simp only [Bool.false_eq_true, if_false]
    rw [runCells_raise_spec pre c rest tn msg hpre hc]
    simp [String.empty_append]
  refine ⟨?_, ?_, ?_, rfl⟩
  · simp only [run_all]
    rw [hcore post, hcore []]
  · simp only [run_all]
    rw [hcore post]
  · simp only [run_all]
    rw [hcore post]

/-- Witness for C3: the spec scenario `["print(a)", "raise ValueError(boom)"]`
gives `stdout = "a\n"` and `stderr = "ValueError: boom\n"` with status 200. -/
theorem run_all_fragment_failure_witness :
    (run_all true false none
        [⟨[], "a\n", "", none⟩, ⟨[], "", "", some ("ValueError", "boom")⟩, noopCell]
        (initialCtx true)).2.stdout = "a\n" ∧
    (run_all true false none
        [⟨[], "a\n", "", none⟩, ⟨[], "", "", some ("ValueError", "boom")⟩, noopCell]
        (initialCtx true)).2.stderr = "ValueError: boom\n" ∧
    (run_all true false none
        [⟨[], "a\n", "", none⟩, ⟨[], "", "", some ("ValueError", "boom")⟩, noopCell]
        (initialCtx true)).2.status = 200 := by
  have h := run_all_fragment_failure true false none
    [⟨[], "a\n", "", none⟩] ⟨[], "", "", some ("ValueError", "boom")⟩ [noopCell]
    (initialCtx true) "ValueError" "boom"
    (by intro hu; cases hu)
    (by
      intro c' hc'
      simp at hc'
      rw [hc'])
    rfl
  obtain ⟨-, h2, h3, h4⟩ := h
  simp only [List.singleton_append] at h2 h3 h4
  refine ⟨?_, ?_, h4⟩
  · rw [h2]
    rfl
  · rw [h3]
    rfl

/-! ## Claim C1 -/

theorem not_mem_of_contains_false (l : List String) (a : String)
    (h : l.contains a = false) : a ∉ l := by
  simpa using h

theorem keepVar_true_spec (res : List String) (kv : String × Value)
    (h : keepVar res kv = true) :
    startsWithDunder kv.1 = false ∧ kv.1 ∉ res ∧
      isCallable kv.2 = false ∧ isType kv.2 = false := by
  simp only [keepVar, Bool.and_eq_true, Bool.not_eq_true'] at h
  obtain ⟨⟨⟨h1, h2⟩, h3⟩, h4⟩ := h
  exact ⟨h1, not_mem_of_contains_false res kv.1 h2, h3, h4⟩

theorem snapshot_pair_spec (res : List String) (ctx : Ctx) (k : String) (info : VarInfo)
    (f : Value → VarInfo)
    (h : (k, info) ∈ (snapshotKeep res ctx).map (fun kv => (kv.1, f kv.2))) :
    startsWithDunder k = false ∧ k ∉ res := by
  obtain ⟨kv, hkv, heq⟩ := List.mem_map.mp h
  obtain ⟨hmem, hkeep⟩ := List.mem_filter.mp hkv
  obtain ⟨h1, h2, h3, h4⟩ := keepVar_true_spec res kv hkeep
  have hk : kv.1 = k := congrArg Prod.fst heq
  rw [← hk]
  exact ⟨h1, h2⟩

/-- C1 is false as stated: the execution endpoints exclude only
`{gap, resolve, PetexServer, srv}` by name, so the module handle `gap_tools`
appears in a `run_cell` snapshot (here running an empty cell against the
module-level namespace with the petex imports loaded). -/
theorem snapshot_contains_module_handle :
    ("gap_tools", renderVar60 (Value.vModule "gap_tools"))
        ∈ (run_cell true false none noopCell (initialCtx true)).2.vars ∧
    (run_cell true false none noopCell (initialCtx true)).2.vars.map Prod.fst
        = ["gap_tools", "pi", "internal"] := by
  decide

/-- C1 (amended): every snapshot returned by `run_cell`, `run_all` or
`/variables/` contains no binding whose name starts with `__`, none whose
value is callable or a type, and none named in that endpoint's own exclusion
list — `{gap, resolve, PetexServer, srv}` for the execution endpoints and
`{gap, gap_tools, resolve, PetexServer, srv}` for the listing endpoint; in
particular `gap_tools` is not excluded by name from the execution-endpoint
snapshots. -/
theorem snapshot_exclusions (petexOk usePetex : Bool) (wf : Option Int) (cells : List Cell)
    (c : Cell) (ctx ctx2 : Ctx) :
    (∀ k info, (k, info) ∈ (run_all petexOk usePetex wf cells ctx).2.vars →
      startsWithDunder k = false ∧ k ∉ execExcluded) ∧
    (∀ k info, (k, info) ∈ (run_cell petexOk usePetex wf c ctx).2.vars →
      startsWithDunder k = false ∧ k ∉ execExcluded) ∧
    (∀ k info, (k, info) ∈ listVariables ctx2 →
      startsWithDunder k = false ∧ k ∉ varsReserved) ∧
    (∀ res kv, kv ∈ snapshotKeep res ctx2 →
      isCallable kv.2 = false ∧ isType kv.2 = false) := by
  refine ⟨?_, ?_, ?_, ?_⟩
  · intro k info h
    exact snapshot_pair_spec execExcluded _ k info renderVar60 h
  · intro k info h
    exact snapshot_pair_spec execExcluded _ k info renderVar60 h
  · intro k info h
    exact snapshot_pair_spec varsReserved _ k info renderVar80 h
  · intro res kv h
    obtain ⟨-, hkeep⟩ := List.mem_filter.mp h
    obtain ⟨-, -, h3, h4⟩ := keepVar_true_spec res kv hkeep
    exact ⟨h3, h4⟩

/-- Witness for C1 (amended) at a concrete member of a concrete snapshot. -/
theorem snapshot_exclusions_witness :
    ("pi", renderVar60 Value.vNamespace)
        ∈ (run_cell true false none noopCell (initialCtx true)).2.vars ∧
    startsWithDunder "pi" = false ∧ "pi" ∉ execExcluded := by
  have hmem : ("pi", renderVar60 Value.vNamespace)
      ∈ (run_cell true false none noopCell (initialCtx true)).2.vars := by decide
  obtain ⟨h1, h2⟩ := (snapshot_exclusions true false none [] noopCell
    (initialCtx true) (initialCtx true)).2.1 "pi" (renderVar60 Value.vNamespace) hmem
  exact ⟨hmem, h1, h2⟩

/-! ## Claim C9 -/

/-- C9 is false as stated: after a reset, `/variables/` lists `pi` and
`internal` — `pi` is not in the endpoint's reserved set, the reserved
`gap_tools` is absent, and the previews are the objects' nonempty string
renderings, not empty placeholders. -/
theorem reset_then_variables_not_reserved :
    (listVariables (reset_context true (initialCtx true))).map Prod.fst = ["pi", "internal"] ∧
    "pi" ∉ varsReserved ∧
    "gap_tools" ∉ (listVariables (reset_context true (initialCtx true))).map Prod.fst ∧
    ∀ info ∈ (listVariables (reset_context true (initialCtx true))).map Prod.snd,
      info.preview ≠ "" := by
  decide

/-- C9 (amended): `reset_context` restores the namespace to exactly the six
fixed module-level bindings, and a subsequent `/variables/` listing shows
exactly the two of them that survive its filters — `pi` and `internal` — with
their usual renderings. -/
theorem reset_restores_fixed_bindings (petexOk : Bool) (ctx : Ctx) :
    reset_context petexOk ctx = initialCtx petexOk ∧
    (listVariables (reset_context petexOk ctx)).map Prod.fst = ["pi", "internal"] := by
  have h : reset_context petexOk ctx = initialCtx petexOk := by
    simp [reset_context]
  refine ⟨h, ?_⟩
  rw [h]
  cases petexOk <;> rfl

/-! ## Claim C10 -/

/-- Running a request with no workflow id and one empty cell leaves every
binding other than `srv` unchanged. -/
theorem ctxGet_run_all_noop (petexOk usePetex : Bool) (ctx : Ctx) (k : String)
    (hk : k ≠ "srv") :
    ctxGet (run_all petexOk usePetex none [noopCell] ctx).1 k = ctxGet ctx k := by
  simp only [run_all]
  rw [ctxGet_ctxPop_ne _ _ _ hk]
  cases usePetex with
  | false => simp [run_all_core, injectWorkflow, runCells, applyAssigns, noopCell]
  | true =>
    cases petexOk with
    | false => simp [run_all_core, injectWorkflow, runCells, applyAssigns, noopCell]
    | true =>
      simp only [run_all_core, injectWorkflow, runCells, applyAssigns, noopCell]
      simp only [Bool.not_true, Bool.and_false, Bool.false_eq_true, if_false, List.foldl_nil]
      exact ctxGet_ctxSet_ne ctx "srv" k Value.vServer hk

/-- C10: a successful local save stamps `workflow_last_output_path` and
`workflow_last_output_count` into the shared namespace; neither name is in
either snapshot exclusion set, so both bindings appear in subsequent
execution-endpoint and listing-endpoint snapshots, and they survive a further
request that does not touch them. -/
theorem save_local_stamps_bindings (dir : String) (wfId : Int) (records : RecordsArg)
    (mode : String) (ctx : Ctx) (fs : FS)
    (hmode : mode = "append" ∨ mode = "replace") :
    ∃ ctx2 fs2 r,
      save_workflow_output_local dir wfId records mode ctx fs = .ok (ctx2, fs2, r) ∧
      ctxGet ctx2 "workflow_last_output_path"
        = some (Value.vStr (workflowOutputPath dir wfId)) ∧
      ctxGet ctx2 "workflow_last_output_count" = some (Value.vInt records.items.length) ∧
      ("workflow_last_output_path", Value.vStr (workflowOutputPath dir wfId))
        ∈ snapshotKeep execExcluded ctx2 ∧
      ("workflow_last_output_path", Value.vStr (workflowOutputPath dir wfId))
        ∈ snapshotKeep varsReserved ctx2 ∧
      ("workflow_last_output_count", Value.vInt records.items.length)
        ∈ snapshotKeep execExcluded ctx2 ∧
      ("workflow_last_output_count", Value.vInt records.items.length)
        ∈ snapshotKeep varsReserved ctx2 ∧
      (∀ petexOk usePetex : Bool,
        ctxGet (run_all petexOk usePetex none [noopCell] ctx2).1 "workflow_last_output_path"
          = some (Value.vStr (workflowOutputPath dir wfId))) ∧
      r = ⟨"saved_local", workflowOutputPath dir wfId, records.items.length⟩ := by
  have hcond : ¬(mode ≠ "append" ∧ mode ≠ "replace") := by
    rcases hmode with h | h
    · intro hx
      exact hx.1 h
    · intro hx
      exact hx.2 h
  have hres : save_workflow_output_local dir wfId records mode ctx fs
      = .ok (ctxSet (ctxSet ctx "workflow_last_output_path"
                (Value.vStr (workflowOutputPath dir wfId)))
              "workflow_last_output_count" (Value.vInt records.items.length),
            (if mode = "replace"
             then fsWrite fs (workflowOutputPath dir wfId)
               (String.join (records.items.map (fun x => x ++ "\n")))
             else fsAppend fs (workflowOutputPath dir wfId)
               (String.join (records.items.map (fun x => x ++ "\n")))),
            ⟨"saved_local", workflowOutputPath dir wfId, records.items.length⟩) := by
    unfold save_workflow_output_local
    rw [if_neg hcond]
  refine ⟨_, _, _, hres, ?_, ?_, ?_, ?_, ?_, ?_, ?_, rfl⟩
  all_goals {
    have hne : ("workflow_last_output_count" : String) ≠ "workflow_last_output_path" := by
      decide
    have hpath : ctxGet
        (ctxSet (ctxSet ctx "workflow_last_output_path"
            (Value.vStr (workflowOutputPath dir wfId)))
          "workflow_last_output_count" (Value.vInt records.items.length))
        "workflow_last_output_path" = some (Value.vStr (workflowOutputPath dir wfId)) := by
      rw [ctxGet_ctxSet_ne _ _ _ _ (by decide), ctxGet_ctxSet_self]
    have hcount : ctxGet
        (ctxSet (ctxSet ctx "workflow_last_output_path"
            (Value.vStr (workflowOutputPath dir wfId)))
          "workflow_last_output_count" (Value.vInt records.items.length))
        "workflow_last_output_count" = some (Value.vInt records.items.length) := by
      rw [ctxGet_ctxSet_self]
    first
    | exact hpath
    | exact hcount
    | exact mem_snapshotKeep_of_ctxGet _ _ _ _ hpath rfl
    | exact mem_snapshotKeep_of_ctxGet _ _ _ _ hcount rfl
    | (intro petexOk usePetex
       rw [ctxGet_run_all_noop petexOk usePetex _ _ (by decide)]
       exact hpath)
  }

/-- Witness for C10 at a concrete save. -/
theorem save_local_stamps_bindings_witness :
    ∃ ctx2 fs2 r,
      save_workflow_output_local "./workflow_outputs" 7 (RecordsArg.listOf ["r1", "r2"])
          "replace" [] [] = .ok (ctx2, fs2, r) ∧
      ctxGet ctx2 "workflow_last_output_path"
        = some (Value.vStr (workflowOutputPath "./workflow_outputs" 7)) ∧
      ctxGet ctx2 "workflow_last_output_count"
        = some (Value.vInt (RecordsArg.listOf ["r1", "r2"]).items.length) ∧
      ("workflow_last_output_path", Value.vStr (workflowOutputPath "./workflow_outputs" 7))
        ∈ snapshotKeep execExcluded ctx2 ∧
      ("workflow_last_output_path", Value.vStr (workflowOutputPath "./workflow_outputs" 7))
        ∈ snapshotKeep varsReserved ctx2 ∧
      ("workflow_last_output_count", Value.vInt (RecordsArg.listOf ["r1", "r2"]).items.length)
        ∈ snapshotKeep execExcluded ctx2 ∧
      ("workflow_last_output_count", Value.vInt (RecordsArg.listOf ["r1", "r2"]).items.length)
        ∈ snapshotKeep varsReserved ctx2 ∧
      (∀ petexOk usePetex : Bool,
        ctxGet (run_all petexOk usePetex none [noopCell] ctx2).1 "workflow_last_output_path"
          = some (Value.vStr (workflowOutputPath "./workflow_outputs" 7))) ∧
      r = ⟨"saved_local", workflowOutputPath "./workflow_outputs" 7,
            (RecordsArg.listOf ["r1", "r2"]).items.length⟩ :=
  save_local_stamps_bindings "./workflow_outputs" 7 (RecordsArg.listOf ["r1", "r2"])
    "replace" [] [] (Or.inr rfl)

/-! ## Claim C6 -/

/-- C6: through `InternalClient._request`, a 401 triggers exactly one
refresh-and-retry — the outcome is then decided by the second GET alone, with
the stored access token updated to the refreshed one; a failed refresh (or no
refresh token) makes the first 401 terminal with its status and body in the
error; any non-401 status is never retried and, when not 200, fails carrying
its status code and body text. -/
theorem internal_request_unauthorized_retry (env : NetEnv) (p : String) (c : Client)
    (htok : c.auth_token ≠ "") :
    ((env.gets 0 (c.base_url ++ p)).1 ≠ 401 →
      clientRequest env p ⟨c, 0, 0⟩ =
        (if (env.gets 0 (c.base_url ++ p)).1 = 200 then
          .ok (⟨c, 1, 0⟩, (env.gets 0 (c.base_url ++ p)).2)
        else
          .error ("Internal API failed (" ++ toString (env.gets 0 (c.base_url ++ p)).1
            ++ "): " ++ (env.gets 0 (c.base_url ++ p)).2))) ∧
    ((env.gets 0 (c.base_url ++ p)).1 = 401 →
      (c.refresh_token = "" ∨ (env.refreshes 0).1 ≠ 200 ∨ (env.refreshes 0).2 = "") →
      clientRequest env p ⟨c, 0, 0⟩ =
        .error ("Internal API failed (" ++ toString (env.gets 0 (c.base_url ++ p)).1
          ++ "): " ++ (env.gets 0 (c.base_url ++ p)).2)) ∧
    ((env.gets 0 (c.base_url ++ p)).1 = 401 → c.refresh_token ≠ "" →
      (env.refreshes 0).1 = 200 → (env.refreshes 0).2 ≠ "" →
      clientRequest env p ⟨c, 0, 0⟩ =
        (if (env.gets 1 (c.base_url ++ p)).1 = 200 then
          .ok (⟨{ c with auth_token := (env.refreshes 0).2 }, 2, 1⟩,
            (env.gets 1 (c.base_url ++ p)).2)
        else
          .error ("Internal API failed (" ++ toString (env.gets 1 (c.base_url ++ p)).1
            ++ "): " ++ (env.gets 1 (c.base_url ++ p)).2))) := by
  have hens : clientEnsureToken env ⟨c, 0, 0⟩ = .ok ⟨c, 0, 0⟩ := by
    simp [clientEnsureToken, htok]
  have hhead : clientHeaders env ⟨c, 0, 0⟩ =
      .ok (⟨c, 0, 0⟩,
        (if c.api_key ≠ "" then [("X-API-Key", c.api_key)] else [])
          ++ [("Authorization", "Bearer " ++ c.auth_token)]) := by
    unfold clientHeaders
    rw [hens]
    simp [htok]
  refine ⟨?_, ?_, ?_⟩
  · intro h401
    unfold clientRequest
    rw [hhead]
    simp [h401]
  · intro h401 hfail
    unfold clientRequest
    rw [hhead]
    have hrr : (clientRefreshToken env ⟨c, 1, 0⟩).2 = false := by
      rcases hfail with hrf | hrf | hrf
      · simp [clientRefreshToken, hrf]
      · cases hcase : decide (c.refresh_token = "") with
        | true => simp [clientRefreshToken, of_decide_eq_true hcase]
        | false => simp [clientRefreshToken, of_decide_eq_false hcase, hrf]
      · cases hcase : decide (c.refresh_token = "") with
        | true => simp [clientRefreshToken, of_decide_eq_true hcase]
        | false =>
          cases hst : decide ((env.refreshes 0).1 = 200) with
          | true => simp [clientRefreshToken, of_decide_eq_false hcase,
              of_decide_eq_true hst, hrf]
          | false => simp [clientRefreshToken, of_decide_eq_false hcase,
              of_decide_eq_false hst]
    simp [h401, hrr]
  · intro h401 hrf hst htk
    have hrefresh : clientRefreshToken env ⟨c, 1, 0⟩ =
        (⟨{ c with auth_token := (env.refreshes 0).2 }, 1, 1⟩, true) := by
      simp [clientRefreshToken, hrf, hst, htk]
    have hens2 : clientEnsureToken env ⟨{ c with auth_token := (env.refreshes 0).2 }, 1, 1⟩
        = .ok ⟨{ c with auth_token := (env.refreshes 0).2 }, 1, 1⟩ := by
      simp [clientEnsureToken, htk]
    have hhead2 : clientHeaders env ⟨{ c with auth_token := (env.refreshes 0).2 }, 1, 1⟩ =
        .ok (⟨{ c with auth_token := (env.refreshes 0).2 }, 1, 1⟩,
          (if c.api_key ≠ "" then [("X-API-Key", c.api_key)] else [])
            ++ [("Authorization", "Bearer " ++ (env.refreshes 0).2)]) := by
      unfold clientHeaders
      rw [hens2]
      simp [htk]
    unfold clientRequest
    rw [hhead]
    simp [h401, hrefresh, hhead2]

/-- Witness for C6: the spec scenario — 401, successful refresh, success on
retry — observed as one successful call with the stored token updated. -/
theorem internal_request_unauthorized_retry_witness :
    clientRequest refreshEnv "/records" ⟨refreshClient, 0, 0⟩ =
      .ok (⟨⟨"http://btlweb:8000/api", "key", "tok2", "", "", "rt"⟩, 2, 1⟩, "payload") := by
  have h := (internal_request_unauthorized_retry refreshEnv "/records" refreshClient
    (by decide)).2.2 rfl (by decide) rfl (by decide)
  rw [h]
  rfl

/-! ## Claim C7 -/

theorem mem_insertSorted (n m : Int) (l : List Int) :
    m ∈ insertSorted n l ↔ m = n ∨ m ∈ l := by
  induction l with
  | nil => simp [insertSorted]
  | cons a l ih =>
    by_cases h : n ≤ a
    · simp [insertSorted, h]
    · simp [insertSorted, h, ih]
      tauto

theorem nodup_insertSorted (n : Int) (l : List Int) (hn : n ∉ l) (h : l.Nodup) :
    (insertSorted n l).Nodup := by
  induction l with
  | nil => simp [insertSorted]
  | cons a l ih =>
    by_cases hle : n ≤ a
    · simp only [insertSorted, if_pos hle]
      exact List.nodup_cons.mpr ⟨hn, h⟩
    · simp only [insertSorted, if_neg hle]
      have hna : n ∉ l := fun hx => hn (List.mem_cons_of_mem a hx)
      have haa : a ∉ l := (List.nodup_cons.mp h).1
      refine List.nodup_cons.mpr ⟨?_, ih hna (List.nodup_cons.mp h).2⟩
      rw [mem_insertSorted]
      rintro (rfl | hx)
      · exact hn (List.mem_cons_self a l)
      · exact haa hx

theorem mem_pySorted (m : Int) (l : List Int) : m ∈ pySorted l ↔ m ∈ l := by
  induction l with
  | nil => simp [pySorted]
  | cons a l ih =>
    simp only [pySorted, List.foldr_cons] at ih ⊢
    rw [mem_insertSorted, ih, List.mem_cons]

theorem nodup_pySorted (l : List Int) (h : l.Nodup) : (pySorted l).Nodup := by
  induction l with
  | nil => simp [pySorted]
  | cons a l ih =>
    simp only [pySorted, List.foldr_cons]
    apply nodup_insertSorted
    · have hm := mem_pySorted a l
      simp only [pySorted] at hm
      rw [hm]
      exact (List.nodup_cons.mp h).1
    · have h2 := ih (List.nodup_cons.mp h).2
      simpa [pySorted] using h2

theorem nodup_pySortedSet (l : List Int) : (pySortedSet l).Nodup :=
  nodup_pySorted _ l.nodup_dedup

theorem mem_pySortedSet (m : Int) (l : List Int) : m ∈ pySortedSet l ↔ m ∈ l := by
  rw [pySortedSet, mem_pySorted, List.mem_dedup]

theorem refStep_shape (byName : List (String × Int)) (ids : List Int) (r : Ref) :
    refStep byName ids r = ids ∨ ∃ x, refStep byName ids r = ids.insert x := by
  cases r with
  | rNone => exact Or.inl rfl
  | rInt n => exact Or.inr ⟨n, rfl⟩
  | rObj pk => exact Or.inr ⟨pk, rfl⟩
  | rStr s =>
    cases hp : pyParseNat s with
    | some n =>
      refine Or.inr ⟨(n : Int), ?_⟩
      simp [refStep, hp]
    | none =>
      cases hv : nameGet byName (pyLower s) with
      | none =>
        refine Or.inl ?_
        simp [refStep, hp, hv]
      | some v =>
        by_cases hv0 : v ≠ 0
        · refine Or.inr ⟨v, ?_⟩
          simp [refStep, hp, hv, hv0]
        · refine Or.inl ?_
          simp [refStep, hp, hv, hv0]
  | rDict idF altF nameF =>
    cases idF with
    | some i => exact Or.inr ⟨i, rfl⟩
    | none =>
      cases altF with
      | some a => exact Or.inr ⟨a, rfl⟩
      | none =>
        cases nameF with
        | none => exact Or.inl rfl
        | some nm =>
          by_cases hnm : nm ≠ ""
          · cases hv : nameGet byName (pyLower nm) with
            | none =>
              refine Or.inl ?_
              simp [refStep, hnm, hv]
            | some v =>
              by_cases hv0 : v ≠ 0
              · refine Or.inr ⟨v, ?_⟩
                simp [refStep, hnm, hv, hv0]
              · refine Or.inl ?_
                simp [refStep, hnm, hv, hv0]
          · refine Or.inl ?_
            simp [refStep, hnm]

theorem refStep_nodup (byName : List (String × Int)) (ids : List Int) (r : Ref)
    (h : ids.Nodup) : (refStep byName ids r).Nodup := by
  rcases refStep_shape byName ids r with he | ⟨x, he⟩
  · rw [he]
    exact h
  · rw [he]
    exact h.insert

theorem refLoop_nodup (byName : List (String × Int)) (items : List Ref) :
    ∀ ids : List Int, ids.Nodup → (items.foldl (refStep byName) ids).Nodup := by
  induction items with
  | nil =>
    intro ids h
    simpa using h
  | cons r items ih =>
    intro ids h
    simp only [List.foldl_cons]
    exact ih _ (refStep_nodup byName ids r h)

/-- C7 is false as stated: `_resolve_type_ids` keeps the literal id `999`
even though the metadata listing only knows type id `1` — stale ids are not
filtered out for types (nor instances/properties). -/
theorem resolve_type_ids_keeps_unknown_id :
    resolve_type_ids (some (RefInput.single (Ref.rInt 999))) ⟨[⟨1, "well"⟩], [], []⟩
        = [999] ∧
    999 ∉ (([⟨1, "well"⟩] : List MetaEntry).map (fun t => t.id)) := by
  decide

/-- C7 (amended): every resolver deduplicates its id set, but only component
resolution filters the result to ids present in the server listing;
type/instance/property resolution keeps unknown numeric ids (dropping only
names that match nothing). -/
theorem reference_resolution_dedup (item : Ref) (items : List Ref) (comps : List Comp)
    (inp : Option RefInput) (insts props : Option (List Ref)) (meta : Meta) (n : Int) :
    (resolve_component_ids (some (item :: items)) comps).Nodup ∧
    (∀ i ∈ resolve_component_ids (some (item :: items)) comps,
      i ∈ comps.map (fun c => c.id)) ∧
    (resolve_type_ids inp meta).Nodup ∧
    (resolve_instance_ids insts meta).Nodup ∧
    (resolve_property_ids props meta).Nodup ∧
    resolve_type_ids (some (RefInput.single (Ref.rInt n))) meta = [n] := by
  refine ⟨?_, ?_, ?_, ?_, ?_, rfl⟩
  · simp only [resolve_component_ids]
    exact nodup_pySortedSet _
  · intro i hi
    simp only [resolve_component_ids] at hi
    rw [mem_pySortedSet] at hi
    have h2 := (List.mem_filter.mp hi).2
    simpa using h2
  · cases inp with
    | none => simp [resolve_type_ids]
    | some inp => exact refLoop_nodup _ _ [] List.nodup_nil
  · cases insts with
    | none => simp [resolve_instance_ids]
    | some l =>
      cases l with
      | nil => simp [resolve_instance_ids]
      | cons a l => exact refLoop_nodup _ _ [] List.nodup_nil
  · cases props with
    | none => simp [resolve_property_ids]
    | some l =>
      cases l with
      | nil => simp [resolve_property_ids]
      | cons a l => exact refLoop_nodup _ _ [] List.nodup_nil

/-- Witness for C7 (amended), discharging its membership hypothesis at a
concrete resolved component id. -/
theorem reference_resolution_dedup_witness :
    (3 : Int) ∈ resolve_component_ids (some [Ref.rInt 3, Ref.rInt 3])
      [⟨3, "GapModel"⟩, ⟨4, "Other"⟩] ∧
    (3 : Int) ∈ ([⟨3, "GapModel"⟩, ⟨4, "Other"⟩] : List Comp).map (fun c => c.id) := by
  have hmem : (3 : Int) ∈ resolve_component_ids (some [Ref.rInt 3, Ref.rInt 3])
      [⟨3, "GapModel"⟩, ⟨4, "Other"⟩] := by decide
  exact ⟨hmem,
    (reference_resolution_dedup (Ref.rInt 3) [Ref.rInt 3] [⟨3, "GapModel"⟩, ⟨4, "Other"⟩]
      none none none ⟨[], [], []⟩ 0).2.1 3 hmem⟩

/-! ## Claim C8 -/

/-- C8 is false as stated: with a supplied, parsed `start` bound, a history
entry whose timestamp is missing (falsy) is kept, not dropped — the guard
`if start_dt and dt and dt < start_dt` short-circuits on `dt = None`. -/
theorem get_history_keeps_unparseable_with_bound :
    get_history_core [⟨some 1, none, some 2, none, some 10, some 20, some 30⟩]
        (fun _ _ => [⟨TimeVal.falsy, "p"⟩]) ⟨[], [], []⟩ (TimeVal.parsed 5) TimeVal.falsy
      = [⟨TimeVal.falsy, "p", 1, 2, "", "", ""⟩] ∧
    parse_dt (TimeVal.parsed 5) = some 5 ∧
    parse_dt TimeVal.falsy = none := by
  decide

/-- C8 (amended): every returned entry whose timestamp parses lies inside the
inclusive `[start, end]` window for each bound that was supplied and parsed;
an entry whose timestamp is missing or unparseable is always kept — whether
or not the bounds are present. -/
theorem get_history_window (records : List Rec) (histories : Int → Int → List HistItem)
    (meta : Meta) (startV endV : TimeVal) :
    (∀ item ∈ get_history_core records histories meta startV endV,
      (∀ d sd, parse_dt item.time = some d → parse_dt startV = some sd → sd ≤ d) ∧
      (∀ d ed, parse_dt item.time = some d → parse_dt endV = some ed → d ≤ ed)) ∧
    (∀ rec ∈ records, ∀ ci ri : Int,
      pyOr rec.component rec.component_id = some ci → ci ≠ 0 →
      pyOr rec.data_set_id rec.rid = some ri → ri ≠ 0 →
      ∀ it ∈ histories ci ri, parse_dt it.time = none →
        decorateItem meta rec ci ri it
          ∈ get_history_core records histories meta startV endV) := by
  constructor
  · intro item hitem
    simp only [get_history_core] at hitem
    rw [List.mem_flatten] at hitem
    obtain ⟨l, hl, hml⟩ := hitem
    obtain ⟨rec, hrec, hfl⟩ := List.mem_map.mp hl
    rw [← hfl] at hml
    unfold historyContrib at hml
    by_cases hcond : (isTruthyInt (pyOr rec.component rec.component_id)
        && isTruthyInt (pyOr rec.data_set_id rec.rid)) = true
    · rw [if_pos hcond] at hml
      obtain ⟨it, hit, hdec⟩ := List.mem_map.mp hml
      obtain ⟨hitmem, hkeep⟩ := List.mem_filter.mp hit
      rw [Bool.and_eq_true, Bool.not_eq_true', Bool.not_eq_true'] at hkeep
      have htime : item.time = it.time := by
        rw [← hdec]
        rfl
      constructor
      · intro d sd hd hsd
        have h1 := hkeep.1
        rw [htime] at hd
        unfold skipBeforeStart at h1
        rw [hsd, hd] at h1
        simp at h1
        omega
      · intro d ed hd hed
        have h2 := hkeep.2
        rw [htime] at hd
        unfold skipAfterEnd at h2
        rw [hed, hd] at h2
        simp at h2
        omega
    · rw [if_neg hcond] at hml
      simp at hml
  · intro rec hrec ci ri hci hci0 hri hri0 it hit hparse
    simp only [get_history_core]
    rw [List.mem_flatten]
    refine ⟨historyContrib histories meta (parse_dt startV) (parse_dt endV) rec,
      List.mem_map_of_mem _ hrec, ?_⟩
    unfold historyContrib
    have hcond : (isTruthyInt (pyOr rec.component rec.component_id)
        && isTruthyInt (pyOr rec.data_set_id rec.rid)) = true := by
      rw [hci, hri]
      simp [isTruthyInt, hci0, hri0]
    rw [if_pos hcond]
    have hci' : (pyOr rec.component rec.component_id).getD 0 = ci := by
      rw [hci]
      rfl
    have hri' : (pyOr rec.data_set_id rec.rid).getD 0 = ri := by
      rw [hri]
      rfl
    rw [hci', hri']
    apply List.mem_map_of_mem
    rw [List.mem_filter]
    refine ⟨hit, ?_⟩
    rw [hparse]
    have hskip1 : skipBeforeStart (parse_dt startV) none = false := by
      cases parse_dt startV <;> rfl
    have hskip2 : skipAfterEnd (parse_dt endV) none = false := by
      cases parse_dt endV <;> rfl
    rw [hskip1, hskip2]
    rfl

/-- Witness for C8 (amended), exhibiting a concrete kept entry with a missing
timestamp under a supplied start bound. -/
theorem get_history_window_witness :
    decorateItem ⟨[], [], []⟩ ⟨some 1, none, some 2, none, some 10, some 20, some 30⟩ 1 2
        ⟨TimeVal.falsy, "p"⟩
      ∈ get_history_core [⟨some 1, none, some 2, none, some 10, some 20, some 30⟩]
          (fun _ _ => [⟨TimeVal.falsy, "p"⟩]) ⟨[], [], []⟩ (TimeVal.parsed 5)
          TimeVal.falsy := by
  exact (get_history_window [⟨some 1, none, some 2, none, some 10, some 20, some 30⟩]
      (fun _ _ => [⟨TimeVal.falsy, "p"⟩]) ⟨[], [], []⟩ (TimeVal.parsed 5) TimeVal.falsy).2
    ⟨some 1, none, some 2, none, some 10, some 20, some 30⟩ (by decide) 1 2
    (by decide) (by decide) (by decide) (by decide)
    ⟨TimeVal.falsy, "p"⟩ (by decide) (by decide)

/-! ## Claim C4 -/

theorem splitSlash_ne_nil : ∀ l : List Char, splitSlash l ≠ [] := by
  intro l
  induction l with
  | nil => simp [splitSlash]
  | cons c rest ih =>
    by_cases hc : c = '/'
    · simp [splitSlash, hc]
    · simp only [splitSlash, if_neg hc]
      cases hs : splitSlash rest with
      | nil => exact absurd hs ih
      | cons s ss => simp

theorem getLastD_irrel {α : Type} (l : List α) (a b : α) (h : l ≠ []) :
    l.getLastD a = l.getLastD b := by
  cases l with
  | nil => exact absurd rfl h
  | cons x xs => rw [List.getLastD_cons, List.getLastD_cons]

/-- The last piece of a slash-split never contains a slash, so the loader's
retry guard `"/" not in module_path.split("/")[-1]` is vacuously true. -/
theorem slash_not_in_lastSegment : ∀ l : List Char, '/' ∉ lastSegment l := by
  intro l
  induction l with
  | nil => simp [lastSegment, splitSlash]
  | cons c rest ih =>
    by_cases hc : c = '/'
    · unfold lastSegment at ih ⊢
      simp only [splitSlash, if_pos hc]
      cases hs : splitSlash rest with
      | nil => exact absurd hs (splitSlash_ne_nil rest)
      | cons s ss =>
        rw [hs] at ih
        simpa [List.getLastD_cons] using ih
    · unfold lastSegment at ih ⊢
      simp only [splitSlash, if_neg hc]
      cases hs : splitSlash rest with
      | nil => exact absurd hs (splitSlash_ne_nil rest)
      | cons s ss =>
        rw [hs] at ih
        cases ss with
        | nil =>
          intro hmem
          simp only [List.getLastD_cons, List.getLastD_nil] at hmem ih
          rcases List.mem_cons.mp hmem with he | hm
          · exact hc he.symm
          · exact ih hm
        | cons s2 ss2 =>
          have h1 : (s2 :: ss2 : List (List Char)) ≠ [] := by simp
          rw [List.getLastD_cons, getLastD_irrel _ (c :: s) [] h1]
          rw [List.getLastD_cons, getLastD_irrel _ s [] h1] at ih
          exact ih

/-- C4 is false as stated: the dotted name `apiapp.domains` has a nested
segment (its slash path contains a slash), yet its 404 is retried with the
`/__init__.py` suffix and the loader returns that fetched source. -/
theorem nested_404_retried :
    get_data module404Server ("apiapp.domains").data = .ok "INITSRC" ∧
    '/' ∈ replaceDots ("apiapp.domains").data := by
  constructor
  · rfl
  · decide

/-- C4 (amended): the loader retries with the package-init suffix exactly
when the first response is a 404, regardless of how many segments the path
has — the nested-segment condition in the source is always true, because the
last piece of a slash-split never contains a slash. -/
theorem get_data_retries_on_any_404 (server : List Char → Nat × String)
    (path : List Char) :
    get_data server path = get_data_retry_always server path := by
  unfold get_data get_data_retry_always
  have h2 := slash_not_in_lastSegment (replaceDots path)
  simp [h2]

/-! ## Claim C5 -/

/-- C5: selecting the upstream-database path — by `save_to="db"` or by the
process-wide `OUTPUT_MODE="db"` — does not persist anything: the closure
calls `_save_workflow_output_db`, which is defined nowhere in the module, so
the call raises `NameError` instead of saving. -/
theorem db_save_raises_nameerror :
    workflow_save_output "local" "./workflow_outputs" 1 (RecordsArg.listOf ["r1"])
        "append" (some "db") [] []
      = .error "NameError: name _save_workflow_output_db is not defined" ∧
    workflow_save_output "db" "./workflow_outputs" 1 (RecordsArg.listOf ["r1"])
        "append" none [] []
      = .error "NameError: name _save_workflow_output_db is not defined" := by
  constructor
  · rfl
  · rfl

end WorkflowAgent

